import Mathlib

/-!
# fiw (Fast Image Writer): a shallow embedding of `src/fiw.c`

The program resolves the metadata of two paths (`file_get_info`), validates
them, opens both and copies the source onto the target with `sendfile` in
chunks of 1024000 bytes (`main`).

Conventions of the embedding

* C integers are `Int` (`short int`, `long`, `off_t`, `time_t`, file
  descriptors) or `Nat` (`mode_t`, `uid_t`, `gid_t`, which are unsigned).  The
  only arithmetic of the program is `written += bytes`, the running sum of the
  positive `sendfile` results; it is taken on `Int`.
* A pointer that may be `NULL` is an `Option`.
* The operating system is an explicit environment `Env`: the effective ids,
  the two stat calls, the contents of freshly allocated blocks, `open`, and
  `sendfile` as a transition on a kernel state.
* `main` produces a `Run`: the trace of observable events, the value of
  `written`, and the exit status (`none` when the copy loop was cut off by the
  fuel bound of the model; the loop is the only place where the C program may
  run forever).
* The percentage `(written * 100.00) / size`, a floating point value in C, is
  the exact rational number.  For `size = 0` the rational quotient is `0` where
  C yields an infinity; no statement below uses a percentage taken with
  `size = 0`.
-/

namespace Fiw

/-! ## Constants of `<sys/stat.h>`, `<fcntl.h>`, `<stdlib.h>` (Linux values) -/

def FALSE : Int := 0
/-- In C: `#define TRUE !FALSE`, the value of `!0` is `1`. -/
def TRUE : Int := if FALSE = 0 then 1 else 0

def EXIT_FAILURE : Int := 1

def S_IFMT : Nat := 0o170000
def S_IFLNK : Nat := 0o120000
def S_IFREG : Nat := 0o100000
def S_IFBLK : Nat := 0o060000
def S_IFDIR : Nat := 0o040000
def S_IFCHR : Nat := 0o020000

def S_IRUSR : Nat := 0o400
def S_IWUSR : Nat := 0o200
def S_IXUSR : Nat := 0o100
def S_IRGRP : Nat := 0o040
def S_IWGRP : Nat := 0o020
def S_IXGRP : Nat := 0o010
def S_IROTH : Nat := 0o004
def S_IWOTH : Nat := 0o002
def S_IXOTH : Nat := 0o001

def O_RDONLY : Nat := 0
def O_WRONLY : Nat := 1
def O_SYNC : Nat := 0o4010000

def S_ISLNK (m : Nat) : Bool := (m &&& S_IFMT) == S_IFLNK
def S_ISREG (m : Nat) : Bool := (m &&& S_IFMT) == S_IFREG
def S_ISDIR (m : Nat) : Bool := (m &&& S_IFMT) == S_IFDIR
def S_ISCHR (m : Nat) : Bool := (m &&& S_IFMT) == S_IFCHR
def S_ISBLK (m : Nat) : Bool := (m &&& S_IFMT) == S_IFBLK

/-! ## Data model -/

/-- The fields of `struct stat` that the program reads. -/
structure stat where
  st_mode : Nat
  st_uid : Nat
  st_gid : Nat
  st_size : Int
  st_mtime : Int
deriving DecidableEq, Repr

/-- The record `struct file_info`; the flags are `short int`. -/
structure file_info where
  size : Int
  is_file : Int
  is_link : Int
  is_char : Int
  is_block : Int
  is_directory : Int
  exec_access : Int
  read_access : Int
  write_access : Int
  last_modification : Int
deriving DecidableEq, Repr

/-- The operating system as seen by the program.  `malloc n` is the
indeterminate content of the `n`-th block handed out by `malloc` (the program
allocates one block per call of `file_get_info`; allocation is taken to
succeed).  `sendfile k out_fd in_fd count` is the result of one call in kernel
state `k` together with the next kernel state. -/
structure Env (σ : Type) where
  geteuid : Nat
  getegid : Nat
  lstat : String → Option stat
  stat : String → Option stat
  malloc : Nat → file_info
  sys_open : String → Nat → Int
  kernel : σ
  sendfile : σ → Int → Int → Int → Int × σ

/-- Observable events of a run, in program order. -/
inductive Event where
  | err (msg : String)
  | opened (path : String) (flags : Nat) (fd : Int)
  | banner (source target : String)
  | transfer (bytes : Int)
  | progress (percent : ℚ) (written size : Int)
  | perror
  | closed (fd : Int)
  | newline
deriving DecidableEq

/-- The outcome of a run: its events, the final value of the variable
`written`, and the exit status (`none`: the loop was still running when the
fuel of the model ran out). -/
structure Run where
  trace : List Event
  written : Int
  status : Option Int
deriving DecidableEq

/-! ## `file_get_info` (lines 65-145) -/

/-- The three tests of lines 123-125, 130-132, 137-139, for one family of
permission bits `usr`, `grp`, `oth`. -/
def access_test (target : stat) (euid egid : Nat) (usr grp oth : Nat) : Bool :=
  ((target.st_mode &&& usr) != 0 && target.st_uid == euid) ||
  ((target.st_mode &&& grp) != 0 && target.st_gid == egid) ||
  ((target.st_mode &&& oth) != 0)

/-- Lines 100-144: everything after `target` has been determined; `i` is the
record as initialised so far. -/
def file_get_info_fill (i : file_info) (euid egid : Nat) (target : stat) : file_info :=
  let i := { i with size := target.st_size }
  let i := { i with last_modification := target.st_mtime }
  let i := if S_ISDIR target.st_mode then
      { i with is_directory := TRUE, is_file := FALSE } else i
  let i := if S_ISCHR target.st_mode then
      { i with is_file := FALSE, is_char := TRUE } else i
  let i := if S_ISBLK target.st_mode then
      { i with is_file := FALSE, is_block := TRUE } else i
  let i := if access_test target euid egid S_IRUSR S_IRGRP S_IROTH then
      { i with read_access := TRUE } else i
  let i := if access_test target euid egid S_IWUSR S_IWGRP S_IWOTH then
      { i with write_access := TRUE } else i
  let i := if access_test target euid egid S_IXUSR S_IXGRP S_IXOTH then
      { i with exec_access := TRUE } else i
  i

/-- The function `file_get_info(path)`; `blk` is the content of the block
returned by `malloc` at line 70.  Lines 81-87 assign seven of the eight flags;
`is_char` keeps whatever the block held. -/
def file_get_info {σ : Type} (env : Env σ) (blk : file_info) (path : String) :
    Option file_info :=
  let euid := env.geteuid
  let egid := env.getegid
  match env.lstat path with
  | none => none
  | some f =>
    let i : file_info :=
      { blk with
        is_file := TRUE, is_link := FALSE, is_block := FALSE, is_directory := FALSE,
        exec_access := FALSE, read_access := FALSE, write_access := FALSE }
    if S_ISLNK f.st_mode then
      let i := { i with is_link := TRUE, is_file := FALSE }
      match env.stat path with
      | none => none
      | some target => some (file_get_info_fill i euid egid target)
    else
      some (file_get_info_fill i euid egid f)

/-! ## `main` (lines 148-228) -/

def count : Int := 1024000

/-- Function `print_err`: prints the message and exits with `EXIT_FAILURE`;
`trace` is what the program did before. -/
def print_err (trace : List Event) (msg : String) : Run :=
  { trace := trace ++ [Event.err msg], written := 0, status := some EXIT_FAILURE }

/-- The `do ... while (bytes > 0)` loop of lines 208-217, at most `fuel`
iterations of it, started in kernel state `k` with the given value of
`written`.  The result is the events produced, the final `written` and the
last value of `bytes` (`none` when the fuel ran out before the loop ended). -/
def copy_loop {σ : Type} (env : Env σ) (fd_target fd_source size : Int) :
    Nat → σ → Int → List Event × Int × Option Int
  | 0, _, written => ([], written, none)
  | fuel + 1, k, written =>
    let r := env.sendfile k fd_target fd_source count
    let bytes := r.1
    if bytes > 0 then
      let written := written + bytes
      let progress : ℚ := ((written : ℚ) * 100) / (size : ℚ)
      let rest := copy_loop env fd_target fd_source size fuel r.2 written
      (Event.transfer bytes :: Event.progress progress written size :: rest.1, rest.2)
    else
      ([Event.transfer bytes], written, some bytes)

/-- Lines 203-227: the job details, the copy loop, `perror`, the two `close`
calls and `return 0`. -/
def main_transfer {σ : Type} (env : Env σ) (fuel : Nat)
    (src tgt : String) (fd_source fd_target size : Int) : Run :=
  let loop := copy_loop env fd_target fd_source size fuel env.kernel 0
  let trace := Event.banner src tgt :: loop.1
  match loop.2.2 with
  | none => { trace := trace, written := loop.2.1, status := none }
  | some bytes =>
    let trace := if bytes < 0 then trace ++ [Event.perror] else trace
    let trace := trace ++ [Event.closed fd_source, Event.closed fd_target, Event.newline]
    { trace := trace, written := loop.2.1, status := some 0 }

/-- Lines 167-227: `main` from the point where `f_source` and `f_target` have
been computed. -/
def main_body {σ : Type} (env : Env σ) (fuel : Nat) (src tgt : String)
    (f_source f_target : Option file_info) : Run :=
  match f_source with
  | none => print_err [] "Error: Invalid source"
  | some s =>
  match f_target with
  | none => print_err [] "Error: Invalid target"
  | some t =>
  if s.read_access = FALSE then
    print_err [] "Error: I cannot read the source file"
  else if s.is_file = FALSE then
    print_err [] "Error: source is not a file"
  else if t.is_block = FALSE ∧ t.is_char = FALSE then
    print_err [] "Error: target must be a char or block device"
  else if t.write_access = FALSE then
    print_err [] "Error: I cannot write to the target block device"
  else
    let fd_source := env.sys_open src O_RDONLY
    let trace := [Event.opened src O_RDONLY fd_source]
    if fd_source = -1 then
      print_err trace "Error: open() failed on source image file"
    else
      let fd_target := env.sys_open tgt (O_WRONLY ||| O_SYNC)
      let trace := trace ++ [Event.opened tgt (O_WRONLY ||| O_SYNC) fd_target]
      if fd_target = -1 then
        print_err trace "Error: open() failed on target block device"
      else
        let r := main_transfer env fuel src tgt fd_source fd_target s.size
        { r with trace := trace ++ r.trace }

/-- The function `main(argc, argv)` with `argc = argv.length`. -/
def main {σ : Type} (env : Env σ) (fuel : Nat) (argv : List String) : Run :=
  if argv.length < 3 then
    print_err [] "Usage: fiw source.img /dev/target_device"
  else
    let src := argv.getD 1 ""
    let tgt := argv.getD 2 ""
    let f_source := file_get_info env (env.malloc 0) src
    let f_target := file_get_info env (env.malloc 1) tgt
    main_body env fuel src tgt f_source f_target

/-! ## Reading a trace -/

/-- The results of the `sendfile` calls of a trace, in order. -/
def transfers : List Event → List Int
  | [] => []
  | Event.transfer b :: rest => b :: transfers rest
  | _ :: rest => transfers rest

/-- The progress lines of a trace, in order: percentage, written, total. -/
def progress_lines : List Event → List (ℚ × Int × Int)
  | [] => []
  | Event.progress p w s :: rest => (p, w, s) :: progress_lines rest
  | _ :: rest => progress_lines rest

/-- The messages printed by `print_err`. -/
def messages : List Event → List String
  | [] => []
  | Event.err m :: rest => m :: messages rest
  | _ :: rest => messages rest

/-- Whether the event is a call of `open`. -/
def is_open : Event → Bool
  | Event.opened _ _ _ => true
  | _ => false

/-- Whether the event is a progress line. -/
def is_progress : Event → Bool
  | Event.progress _ _ _ => true
  | _ => false

/-- Whether the run got as far as calling `open` (line 193). -/
def reaches_open (r : Run) : Bool := r.trace.any is_open

/-- The percentage is computed only right after a `sendfile` call that returned
a positive count: every `progress` event of the trace directly follows a
`transfer b` event with `b > 0`; `prev` is the event before the list. -/
def progress_guarded : Option Event → List Event → Bool
  | _, [] => true
  | prev, Event.progress p w s :: rest =>
    (match prev with
      | some (Event.transfer b) => decide (b > 0)
      | _ => false) && progress_guarded (some (Event.progress p w s)) rest
  | _, e :: rest => progress_guarded (some e) rest

/-- The running totals `w + b₁`, `w + b₁ + b₂`, ... of a list of byte counts,
started at `w`. -/
def running_totals : Int → List Int → List Int
  | _, [] => []
  | w, b :: bs => (w + b) :: running_totals (w + b) bs

/-! ## The validation order as the specification words it -/

/-- The six checks of the validation step in the order of the specification,
each with the message printed when it fails. -/
def spec_checks (source target : Option file_info) : List (Bool × String) :=
  [ (source.isSome, "Error: Invalid source"),
    (target.isSome, "Error: Invalid target"),
    (source.any (fun s => s.read_access != FALSE), "Error: I cannot read the source file"),
    (source.any (fun s => s.is_file != FALSE), "Error: source is not a file"),
    (target.any (fun t => t.is_block != FALSE || t.is_char != FALSE),
      "Error: target must be a char or block device"),
    (target.any (fun t => t.write_access != FALSE),
      "Error: I cannot write to the target block device") ]

/-- The message of the first check that fails, if one does. -/
def spec_first_failure (source target : Option file_info) : Option String :=
  ((spec_checks source target).find? (fun c => !c.1)).map Prod.snd

/-! ## Kernels used to state the properties of the copy loop -/

/-- One `sendfile` call on a source of `N` bytes read up to offset `pos`: it
moves `min cnt (N - pos)` bytes and advances the offset; it never fails. -/
def sendfile_all (N : Int) (pos : Int) (_out_fd _in_fd : Int) (cnt : Int) : Int × Int :=
  (min cnt (N - pos), pos + min cnt (N - pos))

/-- One `sendfile` call of a kernel that replays a list of results. -/
def sendfile_script : List Int → Int → Int → Int → Int × List Int
  | [], _, _, _ => (0, [])
  | b :: rest, _, _, _ => (b, rest)

/-! ## A concrete system -/

/-- A fresh heap block with indeterminate content (`malloc` does not clear
it): every field holds a non-zero value. -/
def stale_block : file_info :=
  { size := 77, is_file := 1, is_link := 1, is_char := 1, is_block := 1, is_directory := 1,
    exec_access := 1, read_access := 1, write_access := 1, last_modification := 77 }

/-- The image file: a regular file of 3000000 bytes, mode 0644, owned by 1000:1000. -/
def image_stat : stat :=
  { st_mode := 0o100644, st_uid := 1000, st_gid := 1000, st_size := 3000000,
    st_mtime := 1300000000 }

/-- A system with a regular image file `source.img`, a symbolic link `link.img`
to it, a dangling link `dangling`, a world-writable block device `/dev/sdb`, a
world-writable regular file `out.img` and a directory `dir`; the process runs
as 1000:1000 and `sendfile` delivers the 3000000 bytes of the image. -/
def demo_env : Env Int :=
  { geteuid := 1000
    getegid := 1000
    lstat := fun p =>
      if p = "source.img" then some image_stat
      else if p = "link.img" then
        some { st_mode := 0o120777, st_uid := 0, st_gid := 0, st_size := 10, st_mtime := 5 }
      else if p = "dangling" then
        some { st_mode := 0o120777, st_uid := 0, st_gid := 0, st_size := 7, st_mtime := 6 }
      else if p = "/dev/sdb" then
        some { st_mode := 0o060666, st_uid := 0, st_gid := 6, st_size := 0, st_mtime := 8 }
      else if p = "out.img" then
        some { st_mode := 0o100666, st_uid := 0, st_gid := 0, st_size := 12, st_mtime := 9 }
      else if p = "dir" then
        some { st_mode := 0o040755, st_uid := 0, st_gid := 0, st_size := 4096, st_mtime := 4 }
      else none
    stat := fun p =>
      if p = "source.img" ∨ p = "link.img" then some image_stat else none
    malloc := fun _ => stale_block
    sys_open := fun p _ => if p = "source.img" then 3 else 4
    kernel := 0
    sendfile := sendfile_all 3000000 }

/-- A system whose source is empty: the first `sendfile` call reports 0. -/
def empty_env : Env Int := { demo_env with sendfile := sendfile_all 0 }

/-- A system whose `sendfile` replays the given results. -/
def script_env (results : List Int) : Env (List Int) :=
  { geteuid := 1000
    getegid := 1000
    lstat := demo_env.lstat
    stat := demo_env.stat
    malloc := demo_env.malloc
    sys_open := demo_env.sys_open
    kernel := results
    sendfile := sendfile_script }

/-! ## Lemmas on `file_get_info_fill` -/

theorem fill_size (i : file_info) (e g : Nat) (t : stat) :
    (file_get_info_fill i e g t).size = t.st_size := by
  simp only [file_get_info_fill, apply_ite file_info.size, ite_self]

theorem fill_last_modification (i : file_info) (e g : Nat) (t : stat) :
    (file_get_info_fill i e g t).last_modification = t.st_mtime := by
  simp only [file_get_info_fill, apply_ite file_info.last_modification, ite_self]

theorem fill_is_link (i : file_info) (e g : Nat) (t : stat) :
    (file_get_info_fill i e g t).is_link = i.is_link := by
  simp only [file_get_info_fill, apply_ite file_info.is_link, ite_self]

theorem fill_read_access (i : file_info) (e g : Nat) (t : stat) :
    (file_get_info_fill i e g t).read_access =
      if access_test t e g S_IRUSR S_IRGRP S_IROTH then TRUE else i.read_access := by
  simp only [file_get_info_fill, apply_ite file_info.read_access, ite_self]

theorem fill_write_access (i : file_info) (e g : Nat) (t : stat) :
    (file_get_info_fill i e g t).write_access =
      if access_test t e g S_IWUSR S_IWGRP S_IWOTH then TRUE else i.write_access := by
  simp only [file_get_info_fill, apply_ite file_info.write_access, ite_self]

theorem fill_exec_access (i : file_info) (e g : Nat) (t : stat) :
    (file_get_info_fill i e g t).exec_access =
      if access_test t e g S_IXUSR S_IXGRP S_IXOTH then TRUE else i.exec_access := by
  simp only [file_get_info_fill, apply_ite file_info.exec_access, ite_self]

theorem fill_is_directory (i : file_info) (e g : Nat) (t : stat) :
    (file_get_info_fill i e g t).is_directory =
      if S_ISDIR t.st_mode then TRUE else i.is_directory := by
  simp only [file_get_info_fill, apply_ite file_info.is_directory, ite_self]

theorem fill_is_char (i : file_info) (e g : Nat) (t : stat) :
    (file_get_info_fill i e g t).is_char =
      if S_ISCHR t.st_mode then TRUE else i.is_char := by
  simp only [file_get_info_fill, apply_ite file_info.is_char, ite_self]

theorem fill_is_block (i : file_info) (e g : Nat) (t : stat) :
    (file_get_info_fill i e g t).is_block =
      if S_ISBLK t.st_mode then TRUE else i.is_block := by
  simp only [file_get_info_fill, apply_ite file_info.is_block, ite_self]

theorem fill_is_file (i : file_info) (e g : Nat) (t : stat) :
    (file_get_info_fill i e g t).is_file =
      if S_ISDIR t.st_mode || S_ISCHR t.st_mode || S_ISBLK t.st_mode then FALSE
      else i.is_file := by
  simp only [file_get_info_fill, apply_ite file_info.is_file, ite_self]
  cases S_ISDIR t.st_mode <;> cases S_ISCHR t.st_mode <;> cases S_ISBLK t.st_mode <;> simp

theorem access_test_iff (t : stat) (e g usr grp oth : Nat) :
    access_test t e g usr grp oth = true ↔
      ((t.st_mode &&& usr ≠ 0 ∧ t.st_uid = e) ∨ (t.st_mode &&& grp ≠ 0 ∧ t.st_gid = g) ∨
        t.st_mode &&& oth ≠ 0) := by
  simp [access_test, or_assoc]

/-- The access flag written for one family of permission bits. -/
theorem access_flag_eq (t : stat) (e g usr grp oth : Nat) :
    (if access_test t e g usr grp oth then TRUE else FALSE) =
      if (t.st_mode &&& usr ≠ 0 ∧ t.st_uid = e) ∨ (t.st_mode &&& grp ≠ 0 ∧ t.st_gid = g) ∨
        t.st_mode &&& oth ≠ 0 then TRUE else FALSE := by
  by_cases h : access_test t e g usr grp oth = true
  · rw [if_pos h, if_pos ((access_test_iff t e g usr grp oth).1 h)]
  · rw [if_neg h, if_neg (fun h2 => h ((access_test_iff t e g usr grp oth).2 h2))]

/-- The record returned when the resolved target is `target`; `lnk` tells
whether the path itself is a symbolic link. -/
theorem file_get_info_resolved {σ : Type} (env : Env σ) (blk : file_info) (path : String)
    (f target : stat) (hl : env.lstat path = some f)
    (hlink : S_ISLNK f.st_mode = true → env.stat path = some target)
    (hplain : S_ISLNK f.st_mode = false → target = f) :
    ∃ r, file_get_info env blk path = some r ∧
      r.size = target.st_size ∧ r.last_modification = target.st_mtime ∧
      r.is_link = (if S_ISLNK f.st_mode then TRUE else FALSE) ∧
      r.is_file = (if S_ISLNK f.st_mode || S_ISDIR target.st_mode || S_ISCHR target.st_mode
        || S_ISBLK target.st_mode then FALSE else TRUE) ∧
      r.is_directory = (if S_ISDIR target.st_mode then TRUE else FALSE) ∧
      r.is_char = (if S_ISCHR target.st_mode then TRUE else blk.is_char) ∧
      r.is_block = (if S_ISBLK target.st_mode then TRUE else FALSE) ∧
      r.read_access =
        (if access_test target env.geteuid env.getegid S_IRUSR S_IRGRP S_IROTH
          then TRUE else FALSE) ∧
      r.write_access =
        (if access_test target env.geteuid env.getegid S_IWUSR S_IWGRP S_IWOTH
          then TRUE else FALSE) ∧
      r.exec_access =
        (if access_test target env.geteuid env.getegid S_IXUSR S_IXGRP S_IXOTH
          then TRUE else FALSE) := by
  cases hk : S_ISLNK f.st_mode
  · have ht := hplain hk
    subst ht
    simp only [file_get_info, hl, hk]
    refine ⟨_, rfl, ?_⟩
    simp only [fill_size, fill_last_modification, fill_is_link, fill_is_file,
      fill_is_directory, fill_is_char, fill_is_block, fill_read_access, fill_write_access,
      fill_exec_access]
    simp
  · have ht := hlink hk
    simp only [file_get_info, hl, hk, ht]
    refine ⟨_, rfl, ?_⟩
    simp only [fill_size, fill_last_modification, fill_is_link, fill_is_file,
      fill_is_directory, fill_is_char, fill_is_block, fill_read_access, fill_write_access,
      fill_exec_access]
    simp

/-! ## Lemmas on traces and on the copy loop -/

theorem transfers_append (a b : List Event) :
    transfers (a ++ b) = transfers a ++ transfers b := by
  induction a with
  | nil => rfl
  | cons e l ih => cases e <;> simp [transfers, ih]

theorem progress_lines_append (a b : List Event) :
    progress_lines (a ++ b) = progress_lines a ++ progress_lines b := by
  induction a with
  | nil => rfl
  | cons e l ih => cases e <;> simp [progress_lines, ih]

theorem progress_guarded_of_no_progress (l : List Event)
    (h : ∀ e ∈ l, is_progress e = false) :
    ∀ prev, progress_guarded prev l = true := by
  induction l with
  | nil => intro prev; rfl
  | cons e l ih =>
    intro prev
    have he := h e (List.mem_cons_self e l)
    have hl := ih (fun x hx => h x (List.mem_cons_of_mem e hx))
    cases e <;> simp_all [progress_guarded, is_progress]

theorem progress_guarded_append_right (l1 l2 : List Event)
    (h2 : ∀ e ∈ l2, is_progress e = false) :
    ∀ prev, progress_guarded prev l1 = true → progress_guarded prev (l1 ++ l2) = true := by
  induction l1 with
  | nil => intro prev _; exact progress_guarded_of_no_progress l2 h2 prev
  | cons e l ih =>
    intro prev h
    cases e <;> simp_all [progress_guarded]

theorem progress_guarded_append_left (l1 l2 : List Event)
    (h1 : ∀ e ∈ l1, is_progress e = false)
    (h2 : ∀ prev, progress_guarded prev l2 = true) :
    ∀ prev, progress_guarded prev (l1 ++ l2) = true := by
  induction l1 with
  | nil => intro prev; exact h2 prev
  | cons e l ih =>
    intro prev
    have he := h1 e (List.mem_cons_self e l)
    have hl := ih (fun x hx => h1 x (List.mem_cons_of_mem e hx))
    cases e <;> simp_all [progress_guarded, is_progress]

/-- The loop issues `sendfile` calls and progress lines, nothing else. -/
theorem copy_loop_events {σ : Type} (env : Env σ) (fdt fds size : Int) :
    ∀ (fuel : Nat) (k : σ) (w : Int) (e : Event),
      e ∈ (copy_loop env fdt fds size fuel k w).1 →
        (∃ b, e = Event.transfer b) ∨ ∃ p x s, e = Event.progress p x s := by
  intro fuel
  induction fuel with
  | zero => intro k w e he; simp [copy_loop] at he
  | succ n ih =>
    intro k w e he
    by_cases hb : (env.sendfile k fdt fds count).1 > 0
    · simp only [copy_loop, if_pos hb, List.mem_cons] at he
      rcases he with he | he | he
      · exact Or.inl ⟨_, he⟩
      · exact Or.inr ⟨_, _, _, he⟩
      · exact ih _ _ e he
    · simp only [copy_loop, if_neg hb, List.mem_singleton] at he
      exact Or.inl ⟨_, he⟩

/-- In the trace of the loop every progress line follows a positive result. -/
theorem copy_loop_guarded {σ : Type} (env : Env σ) (fdt fds size : Int) :
    ∀ (fuel : Nat) (k : σ) (w : Int) (prev : Option Event),
      progress_guarded prev (copy_loop env fdt fds size fuel k w).1 = true := by
  intro fuel
  induction fuel with
  | zero => intro k w prev; rfl
  | succ n ih =>
    intro k w prev
    by_cases hb : (env.sendfile k fdt fds count).1 > 0
    · simp only [copy_loop, if_pos hb]
      simp [progress_guarded, hb, ih]
    · simp only [copy_loop, if_neg hb]
      simp [progress_guarded]

/-- The value of `written` after the loop is the start value plus the positive
results, whatever the kernel does. -/
theorem copy_loop_written {σ : Type} (env : Env σ) (fdt fds size : Int) :
    ∀ (fuel : Nat) (k : σ) (w : Int),
      (copy_loop env fdt fds size fuel k w).2.1 =
        w + ((transfers (copy_loop env fdt fds size fuel k w).1).filter (fun b => 0 < b)).sum := by
  intro fuel
  induction fuel with
  | zero => intro k w; simp [copy_loop, transfers]
  | succ n ih =>
    intro k w
    by_cases hb : (env.sendfile k fdt fds count).1 > 0
    · have hb2 : 0 < (env.sendfile k fdt fds count).1 := hb
      simp only [copy_loop, if_pos hb]
      rw [ih]
      simp [transfers, hb2, add_assoc]
    · have hb2 : ¬ 0 < (env.sendfile k fdt fds count).1 := hb
      simp only [copy_loop, if_neg hb]
      simp [transfers, hb2]

/-- One iteration of the loop after a positive result. -/
theorem copy_loop_pos {σ : Type} (env : Env σ) (fdt fds size : Int) (n : Nat) (k k2 : σ)
    (w b : Int) (hsf : env.sendfile k fdt fds count = (b, k2)) (hb : 0 < b) :
    copy_loop env fdt fds size (n + 1) k w =
      (Event.transfer b :: Event.progress ((((w + b : Int) : ℚ) * 100) / (size : ℚ)) (w + b) size
          :: (copy_loop env fdt fds size n k2 (w + b)).1,
        (copy_loop env fdt fds size n k2 (w + b)).2) := by
  have hb2 : (env.sendfile k fdt fds count).1 > 0 := by rw [hsf]; exact hb
  simp only [copy_loop, if_pos hb2]
  rw [hsf]

/-- The last iteration of the loop: a result that is not positive. -/
theorem copy_loop_nonpos {σ : Type} (env : Env σ) (fdt fds size : Int) (n : Nat) (k k2 : σ)
    (w b : Int) (hsf : env.sendfile k fdt fds count = (b, k2)) (hb : b ≤ 0) :
    copy_loop env fdt fds size (n + 1) k w = ([Event.transfer b], w, some b) := by
  have hb2 : ¬ (env.sendfile k fdt fds count).1 > 0 := by rw [hsf]; exact not_lt.2 hb
  simp only [copy_loop, if_neg hb2]
  rw [hsf]

/-- The loop on a kernel that moves `min count remaining` bytes per call:
with enough fuel it ends on a result `0` with `written` advanced by what was
left of the source. -/
theorem copy_loop_sendfile_all (env : Env Int) (N fdt fds size : Int)
    (hs : ∀ pos o i c, env.sendfile pos o i c = sendfile_all N pos o i c) :
    ∀ (fuel : Nat) (pos w : Int), 0 ≤ pos → pos ≤ N → N - pos + count ≤ fuel * count →
      (copy_loop env fdt fds size fuel pos w).2 = (w + (N - pos), some 0) ∧
      (∀ q ∈ progress_lines (copy_loop env fdt fds size fuel pos w).1,
        q.2.1 ≤ w + (N - pos)) ∧
      (pos < N → (progress_lines (copy_loop env fdt fds size fuel pos w).1).getLast? =
        some ((((w + (N - pos) : Int) : ℚ) * 100) / (size : ℚ), w + (N - pos), size)) ∧
      (pos = N → (copy_loop env fdt fds size fuel pos w).1 = [Event.transfer 0]) := by
  intro fuel
  induction fuel with
  | zero =>
    intro pos w h0 hN hf
    simp only [count, Nat.cast_zero, zero_mul] at hf
    omega
  | succ n ih =>
    intro pos w h0 hN hf
    simp only [count, Nat.cast_succ] at hf
    obtain ⟨b, hbdef⟩ : ∃ b : Int, b = min count (N - pos) := ⟨_, rfl⟩
    have hsf : env.sendfile pos fdt fds count = (b, pos + b) := by
      rw [hs, hbdef]; rfl
    have hb1 : b ≤ N - pos := by rw [hbdef]; exact min_le_right _ _
    have hb2 : b ≤ 1024000 := by rw [hbdef]; exact min_le_left _ _
    have hb3 : b = 1024000 ∨ b = N - pos := by
      rw [hbdef]
      rcases le_total count (N - pos) with h | h
      · left; rw [min_eq_left h]; rfl
      · right; rw [min_eq_right h]
    by_cases hlt : pos < N
    · have hbpos : 0 < b := by omega
      have hfuel : N - (pos + b) + count ≤ n * count := by
        simp only [count]
        omega
      obtain ⟨e1, e2, e3, e4⟩ := ih (pos + b) (w + b) (by omega) (by omega) hfuel
      have hw : w + b + (N - (pos + b)) = w + (N - pos) := by omega
      rw [hw] at e1 e2 e3
      rw [copy_loop_pos env fdt fds size n pos (pos + b) w b hsf hbpos]
      refine ⟨e1, ?_, ?_, ?_⟩
      · intro q hq
        simp only [progress_lines] at hq
        rcases List.mem_cons.1 hq with hq | hq
        · rw [hq]
          show w + b ≤ w + (N - pos)
          omega
        · exact e2 q hq
      · intro _
        simp only [progress_lines]
        by_cases hend : pos + b < N
        · rw [List.getLast?_cons, e3 hend]
          rfl
        · have heq : pos + b = N := by omega
          have hwb : w + b = w + (N - pos) := by omega
          rw [e4 heq, hwb]
          rfl
      · intro h; omega
    · have heq : pos = N := by omega
      have hb0 : b = 0 := by omega
      rw [hb0] at hsf
      rw [copy_loop_nonpos env fdt fds size n pos (pos + 0) w 0 hsf (le_refl 0)]
      refine ⟨?_, ?_, ?_, ?_⟩
      · show (w, some (0 : Int)) = (w + (N - pos), some 0)
        congr 1; omega
      · intro q hq; simp [progress_lines] at hq
      · intro h; omega
      · intro _; rfl

/-- The loop on a kernel that replays the results `ps`, all positive, and then
`r ≤ 0`: with more fuel than `ps` is long it ends on `r`, having added up `ps`. -/
theorem copy_loop_script (env : Env (List Int)) (fdt fds size : Int)
    (hs : ∀ b rest o i c, env.sendfile (b :: rest) o i c = (b, rest)) (r : Int) (hr : r ≤ 0)
    (rest : List Int) :
    ∀ (ps : List Int) (fuel : Nat) (w : Int), (∀ p ∈ ps, 0 < p) → ps.length < fuel →
      (copy_loop env fdt fds size fuel (ps ++ r :: rest) w).2 = (w + ps.sum, some r) ∧
      transfers (copy_loop env fdt fds size fuel (ps ++ r :: rest) w).1 = ps ++ [r] := by
  intro ps
  induction ps with
  | nil =>
    intro fuel w _ hf
    obtain ⟨n, rfl⟩ : ∃ n, fuel = n + 1 := ⟨fuel - 1, by simp at hf; omega⟩
    rw [List.nil_append,
      copy_loop_nonpos env fdt fds size n (r :: rest) rest w r (hs r rest fdt fds count) hr]
    simp [transfers]
  | cons p ps ih =>
    intro fuel w hp hf
    obtain ⟨n, rfl⟩ : ∃ n, fuel = n + 1 := ⟨fuel - 1, by simp at hf; omega⟩
    have hp0 : 0 < p := hp p (List.mem_cons_self p ps)
    obtain ⟨e1, e2⟩ := ih n (w + p) (fun x hx => hp x (List.mem_cons_of_mem p hx))
      (by simp at hf; omega)
    rw [List.cons_append,
      copy_loop_pos env fdt fds size n (p :: (ps ++ r :: rest)) (ps ++ r :: rest) w p
        (hs p _ fdt fds count) hp0]
    refine ⟨?_, ?_⟩
    · show (copy_loop env fdt fds size n (ps ++ r :: rest) (w + p)).2 = _
      rw [e1]; simp [add_assoc]
    · simp only [transfers]
      rw [e2]; rfl

/-- The progress lines of the loop show the running totals of the positive
results, whatever the kernel does. -/
theorem copy_loop_running_totals {σ : Type} (env : Env σ) (fdt fds size : Int) :
    ∀ (fuel : Nat) (k : σ) (w : Int),
      (progress_lines (copy_loop env fdt fds size fuel k w).1).map (fun q => q.2.1) =
        running_totals w
          ((transfers (copy_loop env fdt fds size fuel k w).1).filter (fun b => 0 < b)) := by
  intro fuel
  induction fuel with
  | zero => intro k w; simp [copy_loop, transfers, progress_lines, running_totals]
  | succ n ih =>
    intro k w
    by_cases hb : (env.sendfile k fdt fds count).1 > 0
    · have hb2 : 0 < (env.sendfile k fdt fds count).1 := hb
      simp only [copy_loop, if_pos hb]
      simp [transfers, progress_lines, running_totals, hb2, ih]
    · have hb2 : ¬ 0 < (env.sendfile k fdt fds count).1 := hb
      simp only [copy_loop, if_neg hb]
      simp [transfers, progress_lines, running_totals, hb2]

/-- The `sendfile` calls of the loop on a kernel that moves
`min count remaining` bytes per call, started at offset `pos`: call number `i`
reports `min count (N - pos - i * count)`, or 0 once nothing is left; the calls
add up to what was left of the source and the last one reports 0. -/
theorem copy_loop_sendfile_all_transfers (env : Env Int) (N fdt fds size : Int)
    (hs : ∀ pos o i c, env.sendfile pos o i c = sendfile_all N pos o i c) :
    ∀ (fuel : Nat) (pos w : Int), 0 ≤ pos → pos ≤ N → N - pos + count ≤ fuel * count →
      (transfers (copy_loop env fdt fds size fuel pos w).1).sum = N - pos ∧
      (transfers (copy_loop env fdt fds size fuel pos w).1).getLast? = some 0 ∧
      ((transfers (copy_loop env fdt fds size fuel pos w).1).length : Int) =
        (N - pos + count - 1) / count + 1 ∧
      (∀ i : Nat, i < (transfers (copy_loop env fdt fds size fuel pos w).1).length →
        (transfers (copy_loop env fdt fds size fuel pos w).1)[i]? =
          some (max 0 (min count (N - pos - i * count)))) := by
  intro fuel
  induction fuel with
  | zero =>
    intro pos w h0 hN hf
    simp only [count, Nat.cast_zero, zero_mul] at hf
    omega
  | succ n ih =>
    intro pos w h0 hN hf
    simp only [count, Nat.cast_succ] at hf
    obtain ⟨b, hbdef⟩ : ∃ b : Int, b = min count (N - pos) := ⟨_, rfl⟩
    have hsf : env.sendfile pos fdt fds count = (b, pos + b) := by
      rw [hs, hbdef]; rfl
    have hb1 : b ≤ N - pos := by rw [hbdef]; exact min_le_right _ _
    have hb2 : b ≤ 1024000 := by rw [hbdef]; exact min_le_left _ _
    have hb3 : b = 1024000 ∨ b = N - pos := by
      rw [hbdef]
      rcases le_total count (N - pos) with h | h
      · left; rw [min_eq_left h]; rfl
      · right; rw [min_eq_right h]
    by_cases hlt : pos < N
    · have hbpos : 0 < b := by omega
      have hfuel : N - (pos + b) + count ≤ n * count := by
        simp only [count]
        omega
      obtain ⟨e1, e2, e3, e4⟩ := ih (pos + b) (w + b) (by omega) (by omega) hfuel
      rw [copy_loop_pos env fdt fds size n pos (pos + b) w b hsf hbpos]
      simp only [transfers]
      refine ⟨?_, ?_, ?_, ?_⟩
      · rw [List.sum_cons, e1]; omega
      · rw [List.getLast?_cons, e2]; rfl
      · rw [List.length_cons]
        push_cast
        rw [e3]
        simp only [count]
        omega
      · intro i hi
        cases i with
        | zero =>
          simp only [List.getElem?_cons_zero, Option.some.injEq, count]
          push_cast
          omega
        | succ j =>
          have hj : j < (transfers (copy_loop env fdt fds size n (pos + b) (w + b)).1).length := by
            simpa using hi
          rw [List.getElem?_cons_succ, e4 j hj]
          simp only [Option.some.injEq, count]
          push_cast
          omega
    · have heq : pos = N := by omega
      have hb0 : b = 0 := by omega
      rw [hb0] at hsf
      rw [copy_loop_nonpos env fdt fds size n pos (pos + 0) w 0 hsf (le_refl 0)]
      simp only [transfers]
      refine ⟨?_, rfl, ?_, ?_⟩
      · simp; omega
      · simp only [List.length_singleton, count]
        push_cast
        omega
      · intro i hi
        have hi0 : i = 0 := by simpa using hi
        subst hi0
        simp only [List.getElem?_cons_zero, Option.some.injEq, count]
        push_cast
        omega

/-- What `main_transfer` returns once the loop has ended on the result `b`. -/
theorem main_transfer_done {σ : Type} (env : Env σ) (fuel : Nat) (src tgt : String)
    (fds fdt size b : Int)
    (h : (copy_loop env fdt fds size fuel env.kernel 0).2.2 = some b) :
    main_transfer env fuel src tgt fds fdt size =
      { trace := Event.banner src tgt :: (copy_loop env fdt fds size fuel env.kernel 0).1 ++
          ((if b < 0 then [Event.perror] else []) ++
            [Event.closed fds, Event.closed fdt, Event.newline])
        written := (copy_loop env fdt fds size fuel env.kernel 0).2.1
        status := some 0 } := by
  unfold main_transfer
  simp only [h]
  by_cases hb : b < 0
  · simp [hb]
  · simp [hb]

/-- The shape of the trace of `main_transfer`: the banner, the events of the
loop, and a tail without progress lines. -/
theorem main_transfer_trace {σ : Type} (env : Env σ) (fuel : Nat) (src tgt : String)
    (fds fdt size : Int) :
    ∃ tail, (∀ e ∈ tail, is_progress e = false) ∧
      (main_transfer env fuel src tgt fds fdt size).trace =
        Event.banner src tgt :: (copy_loop env fdt fds size fuel env.kernel 0).1 ++ tail := by
  cases h : (copy_loop env fdt fds size fuel env.kernel 0).2.2 with
  | none =>
    refine ⟨[], by simp, ?_⟩
    unfold main_transfer
    simp [h]
  | some b =>
    rw [main_transfer_done env fuel src tgt fds fdt size b h]
    refine ⟨_, ?_, rfl⟩
    intro e he
    by_cases hb : b < 0
    · simp [hb] at he
      rcases he with he | he | he | he <;> rw [he] <;> rfl
    · simp [hb] at he
      rcases he with he | he | he <;> rw [he] <;> rfl

theorem main_transfer_guarded {σ : Type} (env : Env σ) (fuel : Nat) (src tgt : String)
    (fds fdt size : Int) (prev : Option Event) :
    progress_guarded prev (main_transfer env fuel src tgt fds fdt size).trace = true := by
  obtain ⟨tail, htail, htr⟩ := main_transfer_trace env fuel src tgt fds fdt size
  rw [htr]
  have h1 : progress_guarded prev
      (Event.banner src tgt :: (copy_loop env fdt fds size fuel env.kernel 0).1) = true := by
    simp only [progress_guarded]
    exact copy_loop_guarded env fdt fds size fuel env.kernel 0 _
  have := progress_guarded_append_right
    (Event.banner src tgt :: (copy_loop env fdt fds size fuel env.kernel 0).1) tail htail prev h1
  simpa using this

theorem print_err_guarded (trace : List Event) (msg : String)
    (h : ∀ e ∈ trace, is_progress e = false) (prev : Option Event) :
    progress_guarded prev (print_err trace msg).trace = true := by
  apply progress_guarded_of_no_progress
  intro e he
  simp only [print_err, List.mem_append, List.mem_singleton] at he
  rcases he with he | he
  · exact h e he
  · rw [he]; rfl

theorem main_body_guarded {σ : Type} (env : Env σ) (fuel : Nat) (src tgt : String)
    (f_source f_target : Option file_info) :
    progress_guarded none (main_body env fuel src tgt f_source f_target).trace = true := by
  have hnil : ∀ e ∈ ([] : List Event), is_progress e = false := by simp
  unfold main_body
  cases f_source with
  | none => exact print_err_guarded _ _ hnil _
  | some s =>
  cases f_target with
  | none => exact print_err_guarded _ _ hnil _
  | some t =>
  simp only []
  split_ifs
  · exact print_err_guarded _ _ hnil _
  · exact print_err_guarded _ _ hnil _
  · exact print_err_guarded _ _ hnil _
  · exact print_err_guarded _ _ hnil _
  · exact print_err_guarded _ _ (by intro e he; simp at he; rw [he]; rfl) _
  · exact print_err_guarded _ _
      (by intro e he; simp at he; rcases he with he | he <;> rw [he] <;> rfl) _
  · exact progress_guarded_append_left _ _
      (by intro e he; simp at he; rcases he with he | he <;> rw [he] <;> rfl)
      (fun prev => main_transfer_guarded env fuel src tgt _ _ _ prev) none

theorem main_guarded {σ : Type} (env : Env σ) (fuel : Nat) (argv : List String) :
    progress_guarded none (main env fuel argv).trace = true := by
  unfold main
  split_ifs
  · exact print_err_guarded _ _ (by simp) _
  · exact main_body_guarded env fuel _ _ _ _

/-- File types exclude one another: a regular file is no link, directory or
device. -/
theorem S_ISREG_excl (m : Nat) (h : S_ISREG m = true) :
    S_ISLNK m = false ∧ S_ISDIR m = false ∧ S_ISCHR m = false ∧ S_ISBLK m = false := by
  simp only [S_ISREG, beq_iff_eq] at h
  simp only [S_ISLNK, S_ISDIR, S_ISCHR, S_ISBLK, h]
  decide

theorem S_ISBLK_excl (m : Nat) (h : S_ISBLK m = true) :
    S_ISLNK m = false ∧ S_ISDIR m = false ∧ S_ISCHR m = false ∧ S_ISREG m = false := by
  simp only [S_ISBLK, beq_iff_eq] at h
  simp only [S_ISLNK, S_ISDIR, S_ISCHR, S_ISREG, h]
  decide

/-! ## Properties of `file_get_info` -/

/-- C1: when the resolved target of the path is `target` (the `lstat` record,
or the `stat` record when the path is a symbolic link), `file_get_info` returns
a record whose `read_access` is `TRUE` exactly when (`S_IRUSR` is set and the
owner is the effective uid) or (`S_IRGRP` is set and the group is the effective
gid) or `S_IROTH` is set, and `FALSE` otherwise; `write_access` and
`exec_access` follow the same formula with the `S_IW*` and `S_IX*` bits.  The
formula mentions nothing but the mode, owner and group of the target and the
effective ids. -/
theorem file_get_info_access {σ : Type} (env : Env σ) (blk : file_info) (path : String)
    (f target : stat) (hl : env.lstat path = some f)
    (hlink : S_ISLNK f.st_mode = true → env.stat path = some target)
    (hplain : S_ISLNK f.st_mode = false → target = f) :
    TRUE ≠ FALSE ∧
    ∃ r, file_get_info env blk path = some r ∧
      r.read_access =
        (if (target.st_mode &&& S_IRUSR ≠ 0 ∧ target.st_uid = env.geteuid) ∨
            (target.st_mode &&& S_IRGRP ≠ 0 ∧ target.st_gid = env.getegid) ∨
            target.st_mode &&& S_IROTH ≠ 0 then TRUE else FALSE) ∧
      r.write_access =
        (if (target.st_mode &&& S_IWUSR ≠ 0 ∧ target.st_uid = env.geteuid) ∨
            (target.st_mode &&& S_IWGRP ≠ 0 ∧ target.st_gid = env.getegid) ∨
            target.st_mode &&& S_IWOTH ≠ 0 then TRUE else FALSE) ∧
      r.exec_access =
        (if (target.st_mode &&& S_IXUSR ≠ 0 ∧ target.st_uid = env.geteuid) ∨
            (target.st_mode &&& S_IXGRP ≠ 0 ∧ target.st_gid = env.getegid) ∨
            target.st_mode &&& S_IXOTH ≠ 0 then TRUE else FALSE) := by
  refine ⟨by decide, ?_⟩
  obtain ⟨r, hr, -, -, -, -, -, -, -, hR, hW, hX⟩ :=
    file_get_info_resolved env blk path f target hl hlink hplain
  refine ⟨r, hr, ?_, ?_, ?_⟩
  · rw [hR, access_flag_eq]
  · rw [hW, access_flag_eq]
  · rw [hX, access_flag_eq]

/-- Witness of C1: the image file of the concrete system, read as 1000:1000. -/
theorem file_get_info_access_witness :
    TRUE ≠ FALSE ∧
    ∃ r, file_get_info demo_env stale_block "source.img" = some r ∧
      r.read_access =
        (if (image_stat.st_mode &&& S_IRUSR ≠ 0 ∧ image_stat.st_uid = demo_env.geteuid) ∨
            (image_stat.st_mode &&& S_IRGRP ≠ 0 ∧ image_stat.st_gid = demo_env.getegid) ∨
            image_stat.st_mode &&& S_IROTH ≠ 0 then TRUE else FALSE) ∧
      r.write_access =
        (if (image_stat.st_mode &&& S_IWUSR ≠ 0 ∧ image_stat.st_uid = demo_env.geteuid) ∨
            (image_stat.st_mode &&& S_IWGRP ≠ 0 ∧ image_stat.st_gid = demo_env.getegid) ∨
            image_stat.st_mode &&& S_IWOTH ≠ 0 then TRUE else FALSE) ∧
      r.exec_access =
        (if (image_stat.st_mode &&& S_IXUSR ≠ 0 ∧ image_stat.st_uid = demo_env.geteuid) ∨
            (image_stat.st_mode &&& S_IXGRP ≠ 0 ∧ image_stat.st_gid = demo_env.getegid) ∨
            image_stat.st_mode &&& S_IXOTH ≠ 0 then TRUE else FALSE) :=
  file_get_info_access demo_env stale_block "source.img" image_stat image_stat
    (by decide) (by decide) (fun _ => rfl)

/-- C4: for a path whose `lstat` record `l` is a symbolic link and whose `stat`
record `F` is a regular file, `file_get_info` returns a record with
`is_link = TRUE`, `is_file = FALSE`, the size and modification time of `F`, and
the access flags computed from the mode, owner and group of `F`. -/
theorem file_get_info_symlink_to_file {σ : Type} (env : Env σ) (blk : file_info)
    (path : String) (l F : stat) (hl : env.lstat path = some l)
    (hlnk : S_ISLNK l.st_mode = true) (hF : env.stat path = some F)
    (_hreg : S_ISREG F.st_mode = true) :
    ∃ r, file_get_info env blk path = some r ∧
      r.is_link = TRUE ∧ r.is_file = FALSE ∧
      r.size = F.st_size ∧ r.last_modification = F.st_mtime ∧
      r.read_access =
        (if (F.st_mode &&& S_IRUSR ≠ 0 ∧ F.st_uid = env.geteuid) ∨
            (F.st_mode &&& S_IRGRP ≠ 0 ∧ F.st_gid = env.getegid) ∨
            F.st_mode &&& S_IROTH ≠ 0 then TRUE else FALSE) ∧
      r.write_access =
        (if (F.st_mode &&& S_IWUSR ≠ 0 ∧ F.st_uid = env.geteuid) ∨
            (F.st_mode &&& S_IWGRP ≠ 0 ∧ F.st_gid = env.getegid) ∨
            F.st_mode &&& S_IWOTH ≠ 0 then TRUE else FALSE) ∧
      r.exec_access =
        (if (F.st_mode &&& S_IXUSR ≠ 0 ∧ F.st_uid = env.geteuid) ∨
            (F.st_mode &&& S_IXGRP ≠ 0 ∧ F.st_gid = env.getegid) ∨
            F.st_mode &&& S_IXOTH ≠ 0 then TRUE else FALSE) := by
  obtain ⟨r, hr, hsz, hmt, hlk, hfile, -, -, -, hR, hW, hX⟩ :=
    file_get_info_resolved env blk path l F hl (fun _ => hF)
      (fun h => by rw [hlnk] at h; cases h)
  refine ⟨r, hr, ?_, ?_, hsz, hmt, ?_, ?_, ?_⟩
  · rw [hlk, hlnk]; rfl
  · rw [hfile, hlnk]; rfl
  · rw [hR, access_flag_eq]
  · rw [hW, access_flag_eq]
  · rw [hX, access_flag_eq]

/-- Witness of C4: `link.img` is a link (own size 10, own time 5) to the image
file; the record carries the size 3000000 and the time of the image. -/
theorem file_get_info_symlink_to_file_witness :
    ∃ r, file_get_info demo_env stale_block "link.img" = some r ∧
      r.is_link = TRUE ∧ r.is_file = FALSE ∧
      r.size = 3000000 ∧ r.last_modification = 1300000000 ∧
      r.read_access =
        (if (image_stat.st_mode &&& S_IRUSR ≠ 0 ∧ image_stat.st_uid = demo_env.geteuid) ∨
            (image_stat.st_mode &&& S_IRGRP ≠ 0 ∧ image_stat.st_gid = demo_env.getegid) ∨
            image_stat.st_mode &&& S_IROTH ≠ 0 then TRUE else FALSE) ∧
      r.write_access =
        (if (image_stat.st_mode &&& S_IWUSR ≠ 0 ∧ image_stat.st_uid = demo_env.geteuid) ∨
            (image_stat.st_mode &&& S_IWGRP ≠ 0 ∧ image_stat.st_gid = demo_env.getegid) ∨
            image_stat.st_mode &&& S_IWOTH ≠ 0 then TRUE else FALSE) ∧
      r.exec_access =
        (if (image_stat.st_mode &&& S_IXUSR ≠ 0 ∧ image_stat.st_uid = demo_env.geteuid) ∨
            (image_stat.st_mode &&& S_IXGRP ≠ 0 ∧ image_stat.st_gid = demo_env.getegid) ∨
            image_stat.st_mode &&& S_IXOTH ≠ 0 then TRUE else FALSE) :=
  file_get_info_symlink_to_file demo_env stale_block "link.img"
    { st_mode := 0o120777, st_uid := 0, st_gid := 0, st_size := 10, st_mtime := 5 }
    image_stat (by decide) (by decide) (by decide) (by decide)

/-- C5: `file_get_info` returns `NULL` exactly when `lstat` fails, or the
`lstat` record is a symbolic link and `stat` fails (so it returns a record in
every other case, and `NULL` for a path that `lstat` does not find); and when
the `lstat` record is not a symbolic link the result does not depend on what
`stat` would answer. -/
theorem file_get_info_null_iff {σ : Type} (env : Env σ) (blk : file_info) (path : String) :
    (file_get_info env blk path = none ↔
      (env.lstat path = none ∨
        ∃ f, env.lstat path = some f ∧ S_ISLNK f.st_mode = true ∧ env.stat path = none)) ∧
    ((¬ ∃ f, env.lstat path = some f ∧ S_ISLNK f.st_mode = true) →
      ∀ other : String → Option stat,
        file_get_info { env with stat := other } blk path = file_get_info env blk path) := by
  constructor
  · cases hl : env.lstat path with
    | none => simp [file_get_info, hl]
    | some f =>
      cases hk : S_ISLNK f.st_mode
      · simp [file_get_info, hl, hk]
      · cases hs : env.stat path <;> simp [file_get_info, hl, hk, hs]
  · intro hno other
    cases hl : env.lstat path with
    | none => simp [file_get_info, hl]
    | some f =>
      cases hk : S_ISLNK f.st_mode
      · simp [file_get_info, hl, hk]
      · exact absurd ⟨f, hl, hk⟩ hno

/-- C10, evaluated where the code departs from it: `out.img` is a regular
file (neither a link nor a character device) and the block handed out by
`malloc` holds a stale `1` in `is_char`; the record returned has both
`is_file` and `is_char` set, because lines 81-87 never assign `is_char`. -/
theorem file_get_info_regular_file_stale_is_char :
    S_ISLNK 0o100666 = false ∧ S_ISREG 0o100666 = true ∧ S_ISCHR 0o100666 = false ∧
    demo_env.lstat "out.img" =
      some { st_mode := 0o100666, st_uid := 0, st_gid := 0, st_size := 12, st_mtime := 9 } ∧
    (file_get_info demo_env stale_block "out.img").map
        (fun r => (r.is_file, r.is_directory, r.is_char, r.is_block)) =
      some (TRUE, FALSE, 1, FALSE) := by
  decide

/-! ## Properties of the validation step -/

/-- C3, evaluated where the code departs from it: the source `source.img`
passes the source checks, the target `out.img` is a world-writable regular
file, and the block of the target record holds a stale `1` in `is_char`.  The
record of the target has `is_char = 1`, `main` prints no error message, opens
both paths, copies the 3000000 bytes and returns 0. -/
theorem main_regular_target_stale_is_char :
    (file_get_info demo_env (demo_env.malloc 1) "out.img").map
        (fun r => (r.is_block, r.is_char)) = some (FALSE, 1) ∧
    reaches_open (main demo_env 4 ["fiw", "source.img", "out.img"]) = true ∧
    messages (main demo_env 4 ["fiw", "source.img", "out.img"]).trace = [] ∧
    (main demo_env 4 ["fiw", "source.img", "out.img"]).written = 3000000 ∧
    (main demo_env 4 ["fiw", "source.img", "out.img"]).status = some 0 := by
  decide

/-- C2: `main` reaches the `open` calls exactly when both records are
non-`NULL`, the source has `read_access` and `is_file` set, the target has
`is_block` or `is_char` set, and the target has `write_access` set.  Otherwise
it exits with `EXIT_FAILURE` having done nothing but print one message, the
message of the first of the six checks, in the order of the specification, that
fails. -/
theorem main_body_validation {σ : Type} (env : Env σ) (fuel : Nat) (src tgt : String)
    (f_source f_target : Option file_info) :
    (reaches_open (main_body env fuel src tgt f_source f_target) = true ↔
      ∃ s t, f_source = some s ∧ f_target = some t ∧
        s.read_access ≠ FALSE ∧ s.is_file ≠ FALSE ∧
        (t.is_block ≠ FALSE ∨ t.is_char ≠ FALSE) ∧ t.write_access ≠ FALSE) ∧
    (reaches_open (main_body env fuel src tgt f_source f_target) = false →
      ∃ msg, spec_first_failure f_source f_target = some msg ∧
        main_body env fuel src tgt f_source f_target =
          { trace := [Event.err msg], written := 0, status := some EXIT_FAILURE }) := by
  cases f_source with
  | none => simp [main_body, print_err, reaches_open, is_open, spec_first_failure, spec_checks]
  | some s =>
  cases f_target with
  | none => simp [main_body, print_err, reaches_open, is_open, spec_first_failure, spec_checks]
  | some t =>
  by_cases h1 : s.read_access = FALSE
  · simp [main_body, print_err, reaches_open, is_open, spec_first_failure, spec_checks, h1]
  by_cases h2 : s.is_file = FALSE
  · simp [main_body, print_err, reaches_open, is_open, spec_first_failure, spec_checks, h1, h2]
  by_cases h3 : t.is_block = FALSE ∧ t.is_char = FALSE
  · simp [main_body, print_err, reaches_open, is_open, spec_first_failure, spec_checks, h1, h2,
      h3.1, h3.2]
  by_cases h4 : t.write_access = FALSE
  · simp [main_body, print_err, reaches_open, is_open, spec_first_failure, spec_checks, h1, h2,
      h3, h4]
  have h3b : t.is_block ≠ FALSE ∨ t.is_char ≠ FALSE := by
    by_contra hc
    push_neg at hc
    exact h3 hc
  have hreach : reaches_open (main_body env fuel src tgt (some s) (some t)) = true := by
    simp only [main_body, if_neg h1, if_neg h2, if_neg h3, if_neg h4]
    by_cases h5 : env.sys_open src O_RDONLY = -1
    · simp [print_err, reaches_open, is_open, h5]
    · by_cases h6 : env.sys_open tgt (O_WRONLY ||| O_SYNC) = -1
      · simp [print_err, reaches_open, is_open, h5, h6]
      · simp [reaches_open, is_open, h5, h6]
  refine ⟨⟨fun _ => ⟨s, t, rfl, rfl, h1, h2, h3b, h4⟩, fun _ => hreach⟩, ?_⟩
  intro hno
  rw [hreach] at hno
  cases hno

/-! ## Properties of the copy loop -/

/-- C6: on a source of `N ≥ 0` bytes, when every `sendfile` call moves
`min count remaining` bytes and never fails, the transfer part of `main` run
with enough fuel (`N + count ≤ fuel * count`) ends and returns 0 with
`written = N`.  The `sendfile` calls it makes add up to `N` bytes: call number
`i` moves `min count (N - i * count)` bytes (0 once nothing is left), the last
call reports 0, and there are `⌈N / count⌉ + 1` calls.  The progress lines show
the running totals of the positive results, each with `written ≤ N`, and for
`N > 0` the last progress line shows the percentage `100` (as a rational) with
`written = N` of `N`. -/
theorem main_transfer_copies_all (env : Env Int) (N : Int) (fuel : Nat) (src tgt : String)
    (fds fdt : Int) (hN : 0 ≤ N) (hk : env.kernel = 0)
    (hs : ∀ pos o i c, env.sendfile pos o i c = (min c (N - pos), pos + min c (N - pos)))
    (hfuel : N + count ≤ fuel * count) :
    (main_transfer env fuel src tgt fds fdt N).status = some 0 ∧
    (main_transfer env fuel src tgt fds fdt N).written = N ∧
    (transfers (main_transfer env fuel src tgt fds fdt N).trace).sum = N ∧
    (∀ i : Nat, i < (transfers (main_transfer env fuel src tgt fds fdt N).trace).length →
      (transfers (main_transfer env fuel src tgt fds fdt N).trace)[i]? =
        some (max 0 (min count (N - i * count)))) ∧
    (transfers (main_transfer env fuel src tgt fds fdt N).trace).getLast? = some 0 ∧
    ((transfers (main_transfer env fuel src tgt fds fdt N).trace).length : Int) =
      (N + count - 1) / count + 1 ∧
    (progress_lines (main_transfer env fuel src tgt fds fdt N).trace).map (fun q => q.2.1) =
      running_totals 0
        ((transfers (main_transfer env fuel src tgt fds fdt N).trace).filter
          (fun b => 0 < b)) ∧
    (∀ q ∈ progress_lines (main_transfer env fuel src tgt fds fdt N).trace, q.2.1 ≤ N) ∧
    (0 < N →
      (progress_lines (main_transfer env fuel src tgt fds fdt N).trace).getLast? =
        some (100, N, N)) := by
  obtain ⟨e1, e2, e3, -⟩ := copy_loop_sendfile_all env N fdt fds N hs fuel 0 0 (le_refl 0) hN
    (by simpa using hfuel)
  obtain ⟨t1, t2, t3, t4⟩ := copy_loop_sendfile_all_transfers env N fdt fds N hs fuel 0 0
    (le_refl 0) hN (by simpa using hfuel)
  have hrun := copy_loop_running_totals env fdt fds N fuel 0 0
  simp only [zero_add, sub_zero] at e1 e2 e3 t1 t3 t4
  have hdone : (copy_loop env fdt fds N fuel env.kernel 0).2.2 = some 0 := by rw [hk, e1]
  have hpl : progress_lines (main_transfer env fuel src tgt fds fdt N).trace =
      progress_lines (copy_loop env fdt fds N fuel 0 0).1 := by
    rw [main_transfer_done env fuel src tgt fds fdt N 0 hdone, hk]
    simp [progress_lines, progress_lines_append]
  have htr : transfers (main_transfer env fuel src tgt fds fdt N).trace =
      transfers (copy_loop env fdt fds N fuel 0 0).1 := by
    rw [main_transfer_done env fuel src tgt fds fdt N 0 hdone, hk]
    simp [transfers, transfers_append]
  rw [hpl, htr, main_transfer_done env fuel src tgt fds fdt N 0 hdone, hk]
  refine ⟨rfl, ?_, t1, t4, t2, t3, hrun, e2, ?_⟩
  · show (copy_loop env fdt fds N fuel 0 0).2.1 = N
    rw [e1]
  · intro hpos
    rw [e3 hpos]
    have hne : (N : ℚ) ≠ 0 := by
      have : (0 : ℚ) < (N : ℚ) := by exact_mod_cast hpos
      exact ne_of_gt this
    rw [mul_div_assoc, mul_comm, div_mul_cancel₀ _ hne]

/-- Witness of C6: the image of 3000000 bytes, four iterations. -/
theorem main_transfer_copies_all_witness :
    (main_transfer demo_env 4 "source.img" "/dev/sdb" 3 4 3000000).status = some 0 ∧
    (main_transfer demo_env 4 "source.img" "/dev/sdb" 3 4 3000000).written = 3000000 ∧
    (transfers (main_transfer demo_env 4 "source.img" "/dev/sdb" 3 4 3000000).trace).sum
      = 3000000 ∧
    (∀ i : Nat,
      i < (transfers (main_transfer demo_env 4 "source.img" "/dev/sdb" 3 4 3000000).trace).length →
      (transfers (main_transfer demo_env 4 "source.img" "/dev/sdb" 3 4 3000000).trace)[i]? =
        some (max 0 (min count (3000000 - i * count)))) ∧
    (transfers (main_transfer demo_env 4 "source.img" "/dev/sdb" 3 4 3000000).trace).getLast?
      = some 0 ∧
    ((transfers (main_transfer demo_env 4 "source.img" "/dev/sdb" 3 4 3000000).trace).length : Int)
      = (3000000 + count - 1) / count + 1 ∧
    (progress_lines (main_transfer demo_env 4 "source.img" "/dev/sdb" 3 4 3000000).trace).map
        (fun q => q.2.1) =
      running_totals 0
        ((transfers (main_transfer demo_env 4 "source.img" "/dev/sdb" 3 4 3000000).trace).filter
          (fun b => 0 < b)) ∧
    (∀ q ∈ progress_lines (main_transfer demo_env 4 "source.img" "/dev/sdb" 3 4 3000000).trace,
      q.2.1 ≤ 3000000) ∧
    ((0 : Int) < 3000000 →
      (progress_lines
          (main_transfer demo_env 4 "source.img" "/dev/sdb" 3 4 3000000).trace).getLast? =
        some (100, 3000000, 3000000)) :=
  main_transfer_copies_all demo_env 3000000 4 "source.img" "/dev/sdb" 3 4 (by decide) rfl
    (fun _ _ _ _ => rfl) (by decide)

/-- C7: when the first `sendfile` call reports 0 bytes (a source of size 0),
the transfer part of `main` makes exactly one `sendfile` call, prints no
progress line (the percentage is never computed), leaves `written = 0` and
returns 0.  In every run of `main`, on any system, each progress line directly
follows a `sendfile` call that returned a positive count. -/
theorem main_transfer_empty_source {σ : Type} (env : Env σ) (fuel : Nat) (src tgt : String)
    (fds fdt size : Int) (hfuel : 0 < fuel)
    (h0 : (env.sendfile env.kernel fdt fds count).1 = 0) :
    (main_transfer env fuel src tgt fds fdt size).status = some 0 ∧
    (main_transfer env fuel src tgt fds fdt size).written = 0 ∧
    transfers (main_transfer env fuel src tgt fds fdt size).trace = [0] ∧
    progress_lines (main_transfer env fuel src tgt fds fdt size).trace = [] ∧
    (∀ (env2 : Env σ) (fuel2 : Nat) (argv : List String),
      progress_guarded none (main env2 fuel2 argv).trace = true) := by
  obtain ⟨n, rfl⟩ : ∃ n, fuel = n + 1 := ⟨fuel - 1, by omega⟩
  have hsf : env.sendfile env.kernel fdt fds count =
      (0, (env.sendfile env.kernel fdt fds count).2) := by
    rw [← h0]
  have hloop := copy_loop_nonpos env fdt fds size n env.kernel _ 0 0 hsf (le_refl 0)
  have hdone : (copy_loop env fdt fds size (n + 1) env.kernel 0).2.2 = some 0 := by rw [hloop]
  rw [main_transfer_done env (n + 1) src tgt fds fdt size 0 hdone, hloop]
  refine ⟨rfl, rfl, ?_, ?_, ?_⟩
  · simp [transfers]
  · simp [progress_lines]
  · intro env2 fuel2 argv
    exact main_guarded env2 fuel2 argv

/-- Witness of C7: the empty source, with `size = 0`. -/
theorem main_transfer_empty_source_witness :
    (main_transfer empty_env 1 "source.img" "/dev/sdb" 3 4 0).status = some 0 ∧
    (main_transfer empty_env 1 "source.img" "/dev/sdb" 3 4 0).written = 0 ∧
    transfers (main_transfer empty_env 1 "source.img" "/dev/sdb" 3 4 0).trace = [0] ∧
    progress_lines (main_transfer empty_env 1 "source.img" "/dev/sdb" 3 4 0).trace = [] ∧
    (∀ (env2 : Env Int) (fuel2 : Nat) (argv : List String),
      progress_guarded none (main env2 fuel2 argv).trace = true) :=
  main_transfer_empty_source empty_env 1 "source.img" "/dev/sdb" 3 4 0 (by decide) (by decide)

/-- C9: when the `sendfile` calls return the positive results `ps` and then a
first result `r ≤ 0`, the transfer part of `main` (run with more fuel than `ps`
is long) returns 0 whether `r` is 0 or negative, `written` is the sum of `ps`,
the calls made are exactly `ps` followed by `r`, and `perror` is called exactly
when `r < 0`. -/
theorem main_transfer_exit_status (env : Env (List Int)) (fuel : Nat) (src tgt : String)
    (fds fdt size : Int) (ps : List Int) (r : Int)
    (hs : ∀ b rest o i c, env.sendfile (b :: rest) o i c = (b, rest))
    (hk : env.kernel = ps ++ [r]) (hps : ∀ p ∈ ps, 0 < p) (hr : r ≤ 0)
    (hfuel : ps.length < fuel) :
    (main_transfer env fuel src tgt fds fdt size).status = some 0 ∧
    (main_transfer env fuel src tgt fds fdt size).written = ps.sum ∧
    transfers (main_transfer env fuel src tgt fds fdt size).trace = ps ++ [r] ∧
    (Event.perror ∈ (main_transfer env fuel src tgt fds fdt size).trace ↔ r < 0) := by
  obtain ⟨e1, e2⟩ := copy_loop_script env fdt fds size hs r hr [] ps fuel 0 hps hfuel
  rw [← hk] at e1
  nth_rewrite 1 [← hk] at e2
  have hdone : (copy_loop env fdt fds size fuel env.kernel 0).2.2 = some r := by rw [e1]
  have hno : Event.perror ∉ (copy_loop env fdt fds size fuel env.kernel 0).1 := by
    intro hmem
    rcases copy_loop_events env fdt fds size fuel env.kernel 0 _ hmem with ⟨b, hb⟩ | ⟨p, x, s, hp⟩
    · cases hb
    · cases hp
  rw [main_transfer_done env fuel src tgt fds fdt size r hdone]
  refine ⟨rfl, ?_, ?_, ?_⟩
  · show (copy_loop env fdt fds size fuel env.kernel 0).2.1 = ps.sum
    rw [e1]; simp
  · by_cases hneg : r < 0
    · simp [transfers, transfers_append, e2, hneg]
    · simp [transfers, transfers_append, e2, hneg]
  · by_cases hneg : r < 0
    · simp [hneg]
    · simp [hneg, hno]

/-- Witness of C9: two chunks and then the error result `-1`. -/
theorem main_transfer_exit_status_witness :
    (main_transfer (script_env [1024000, 500, -1]) 3 "source.img" "/dev/sdb" 3 4 3000000).status
      = some 0 ∧
    (main_transfer (script_env [1024000, 500, -1]) 3 "source.img" "/dev/sdb" 3 4 3000000).written
      = [1024000, 500].sum ∧
    transfers
        (main_transfer (script_env [1024000, 500, -1]) 3 "source.img" "/dev/sdb" 3 4 3000000).trace
      = [1024000, 500] ++ [-1] ∧
    (Event.perror ∈
        (main_transfer (script_env [1024000, 500, -1]) 3 "source.img" "/dev/sdb" 3 4 3000000).trace
      ↔ (-1 : Int) < 0) :=
  main_transfer_exit_status (script_env [1024000, 500, -1]) 3 "source.img" "/dev/sdb" 3 4 3000000
    [1024000, 500] (-1) (fun _ _ _ _ _ => rfl) rfl (by decide) (by decide) (by decide)

/-- The loop on a source of 3000000 bytes: four calls. -/
theorem copy_loop_three_million (env : Env Int) (fdt fds size : Int) (n : Nat)
    (hs : ∀ pos o i c,
      env.sendfile pos o i c = (min c (3000000 - pos), pos + min c (3000000 - pos))) :
    copy_loop env fdt fds size (n + 4) 0 0 =
      ([Event.transfer 1024000,
        Event.progress ((((0 + 1024000 : Int) : ℚ) * 100) / (size : ℚ)) (0 + 1024000) size,
        Event.transfer 1024000,
        Event.progress ((((0 + 1024000 + 1024000 : Int) : ℚ) * 100) / (size : ℚ))
          (0 + 1024000 + 1024000) size,
        Event.transfer 952000,
        Event.progress ((((0 + 1024000 + 1024000 + 952000 : Int) : ℚ) * 100) / (size : ℚ))
          (0 + 1024000 + 1024000 + 952000) size,
        Event.transfer 0], 0 + 1024000 + 1024000 + 952000, some 0) := by
  rw [copy_loop_pos env fdt fds size (n + 3) 0 1024000 0 1024000 (by rw [hs]; decide)
      (by decide),
    copy_loop_pos env fdt fds size (n + 2) 1024000 2048000 (0 + 1024000) 1024000
      (by rw [hs]; decide) (by decide),
    copy_loop_pos env fdt fds size (n + 1) 2048000 3000000 (0 + 1024000 + 1024000) 952000
      (by rw [hs]; decide) (by decide),
    copy_loop_nonpos env fdt fds size n 3000000 3000000 (0 + 1024000 + 1024000 + 952000) 0
      (by rw [hs]; decide) (by decide)]

/-- C8: for a readable regular-file source of 3000000 bytes and a writable
block-device target that both open, with `sendfile` moving
`min count remaining` bytes per call, `main` (run with fuel for at least four
iterations) makes exactly three `sendfile` calls that move a chunk, of
1024000, 1024000 and 952000 bytes in that order, followed by the one call that
reports 0 bytes and ends the loop; the last progress line shows 100 percent,
`written = 3000000` of 3000000; `written` ends at 3000000 and the exit status
is 0. -/
theorem main_three_million (env : Env Int) (fuel : Nat) (prog src tgt : String) (s t : stat)
    (hsrc : env.lstat src = some s) (hreg : S_ISREG s.st_mode = true)
    (hsize : s.st_size = 3000000)
    (hread : (s.st_mode &&& S_IRUSR ≠ 0 ∧ s.st_uid = env.geteuid) ∨
      (s.st_mode &&& S_IRGRP ≠ 0 ∧ s.st_gid = env.getegid) ∨ s.st_mode &&& S_IROTH ≠ 0)
    (htgt : env.lstat tgt = some t) (hblk : S_ISBLK t.st_mode = true)
    (hwrite : (t.st_mode &&& S_IWUSR ≠ 0 ∧ t.st_uid = env.geteuid) ∨
      (t.st_mode &&& S_IWGRP ≠ 0 ∧ t.st_gid = env.getegid) ∨ t.st_mode &&& S_IWOTH ≠ 0)
    (hos : env.sys_open src O_RDONLY ≠ -1)
    (hot : env.sys_open tgt (O_WRONLY ||| O_SYNC) ≠ -1)
    (hk : env.kernel = 0)
    (hs : ∀ pos o i c,
      env.sendfile pos o i c = (min c (3000000 - pos), pos + min c (3000000 - pos)))
    (hfuel : 4 ≤ fuel) :
    (transfers (main env fuel [prog, src, tgt]).trace).filter (fun b => 0 < b) =
      [1024000, 1024000, 952000] ∧
    transfers (main env fuel [prog, src, tgt]).trace = [1024000, 1024000, 952000, 0] ∧
    (progress_lines (main env fuel [prog, src, tgt]).trace).getLast? =
      some (100, 3000000, 3000000) ∧
    (main env fuel [prog, src, tgt]).written = 3000000 ∧
    (main env fuel [prog, src, tgt]).status = some 0 := by
  obtain ⟨n, rfl⟩ : ∃ n, fuel = n + 4 := ⟨fuel - 4, by omega⟩
  obtain ⟨sl, sd, sc, sb⟩ := S_ISREG_excl s.st_mode hreg
  obtain ⟨tl, -, -, -⟩ := S_ISBLK_excl t.st_mode hblk
  obtain ⟨rs, hrs, hsz, -, -, hfile, -, -, -, hR, -, -⟩ :=
    file_get_info_resolved env (env.malloc 0) src s s hsrc
      (fun h => by rw [sl] at h; cases h) (fun _ => rfl)
  obtain ⟨rt, hrt, -, -, -, -, -, -, hB, -, hW, -⟩ :=
    file_get_info_resolved env (env.malloc 1) tgt t t htgt
      (fun h => by rw [tl] at h; cases h) (fun _ => rfl)
  rw [if_pos ((access_test_iff _ _ _ _ _ _).2 hread)] at hR
  rw [if_pos ((access_test_iff _ _ _ _ _ _).2 hwrite)] at hW
  rw [hblk, if_pos rfl] at hB
  simp only [sl, sd, sc, sb, Bool.or_self, Bool.false_eq_true, if_false] at hfile
  rw [hsize] at hsz
  have hTF : TRUE ≠ FALSE := by decide
  have h1 : rs.read_access ≠ FALSE := by rw [hR]; exact hTF
  have h2 : rs.is_file ≠ FALSE := by rw [hfile]; exact hTF
  have h3 : ¬ (rt.is_block = FALSE ∧ rt.is_char = FALSE) := by
    rw [hB]; exact fun h => hTF h.1
  have h4 : rt.write_access ≠ FALSE := by rw [hW]; exact hTF
  have hloop := copy_loop_three_million env (env.sys_open tgt (O_WRONLY ||| O_SYNC))
    (env.sys_open src O_RDONLY) 3000000 n hs
  have hdone : (copy_loop env (env.sys_open tgt (O_WRONLY ||| O_SYNC))
      (env.sys_open src O_RDONLY) 3000000 (n + 4) env.kernel 0).2.2 = some 0 := by
    rw [hk, hloop]
  have hmain : main env (n + 4) [prog, src, tgt] =
      { main_transfer env (n + 4) src tgt (env.sys_open src O_RDONLY)
          (env.sys_open tgt (O_WRONLY ||| O_SYNC)) 3000000 with
        trace := [Event.opened src O_RDONLY (env.sys_open src O_RDONLY)] ++
          [Event.opened tgt (O_WRONLY ||| O_SYNC) (env.sys_open tgt (O_WRONLY ||| O_SYNC))] ++
          (main_transfer env (n + 4) src tgt (env.sys_open src O_RDONLY)
            (env.sys_open tgt (O_WRONLY ||| O_SYNC)) 3000000).trace } := by
    simp only [main, List.length_cons, List.length_nil, List.getD_cons_succ, List.getD_cons_zero,
      hrs, hrt]
    simp only [main_body, if_neg h1, if_neg h2, if_neg h3, if_neg h4, if_neg hos, if_neg hot, hsz]
    simp
  rw [hmain, main_transfer_done env (n + 4) src tgt _ _ 3000000 0 hdone, hk, hloop]
  refine ⟨?_, ?_, ?_, ?_, ?_⟩
  · simp [transfers]
  · simp [transfers]
  · simp [progress_lines]
  · simp
  · rfl

/-- Witness of C8: the concrete system. -/
theorem main_three_million_witness :
    (transfers (main demo_env 4 ["fiw", "source.img", "/dev/sdb"]).trace).filter
        (fun b => 0 < b) = [1024000, 1024000, 952000] ∧
    transfers (main demo_env 4 ["fiw", "source.img", "/dev/sdb"]).trace =
      [1024000, 1024000, 952000, 0] ∧
    (progress_lines (main demo_env 4 ["fiw", "source.img", "/dev/sdb"]).trace).getLast? =
      some (100, 3000000, 3000000) ∧
    (main demo_env 4 ["fiw", "source.img", "/dev/sdb"]).written = 3000000 ∧
    (main demo_env 4 ["fiw", "source.img", "/dev/sdb"]).status = some 0 :=
  main_three_million demo_env 4 "fiw" "source.img" "/dev/sdb" image_stat
    { st_mode := 0o060666, st_uid := 0, st_gid := 6, st_size := 0, st_mtime := 8 }
    (by decide) (by decide) (by decide) (by decide) (by decide) (by decide) (by decide)
    (by decide) (by decide) rfl (fun _ _ _ _ => rfl) (by decide)

end Fiw
